import Mathlib

/-!
Verification of the LVK chatbot AIML engine (src/chatbot/nlp-engine/aimlengine.cpp).

The engine delegates pattern matching to the third-party ProgramQ `AIMLParser`
(src/third-party, not part of the verified sources); the parser is therefore
modelled abstractly as a behavior function, and properties that depend on the
backend carry the backend's contract as an explicit hypothesis.

C++ `long` values are represented by their 64-bit two's-complement bit pattern,
i.e. a natural number below 2^64.
-/

namespace Chatbot

/-- The ANY_USER sentinel (`#define ANY_USER ""` in aimlengine.cpp). -/
def ANY_USER : String := ""

/-! ## Match identity codec (aimlengine.cpp, lines 53-75) -/

/-- Number of low bits reserved for the input-variant index. -/
def INPUT_NUMBER_BITS : Nat := 12

/-- Mask `0xfff` selecting the input-variant index bits. -/
def INPUT_NUMBER_MASK : Nat := 0xfff

/-- Embedding of `getCategoryId(ruleId, inputNumber)`:
`((long)ruleId << INPUT_NUMBER_BITS) | (long)inputNumber` on 64-bit longs.
Arguments are the (nonnegative) rule id and input index; the shift wraps at
2^64 as the machine operation does. -/
def getCategoryId (ruleId : Nat) (inputNumber : Nat) : Nat :=
  ((ruleId <<< INPUT_NUMBER_BITS) % 2 ^ 64) ||| (inputNumber % 2 ^ 64)

/-- Embedding of `getRuleId(categoryId)`: `categoryId >> INPUT_NUMBER_BITS`,
an arithmetic (sign-extending) right shift on a signed 64-bit long, expressed
on the bit pattern. -/
def getRuleId (categoryId : Nat) : Nat :=
  if categoryId < 2 ^ 63 then categoryId >>> INPUT_NUMBER_BITS
  else (categoryId >>> INPUT_NUMBER_BITS) ||| (INPUT_NUMBER_MASK <<< 52)

/-- Embedding of `getInputNumber(categoryId)`: `categoryId & INPUT_NUMBER_MASK`. -/
def getInputNumber (categoryId : Nat) : Nat :=
  categoryId &&& INPUT_NUMBER_MASK

/-- Embedding of the helper `convert`: clears the match list and, when the
category-id list is non-empty, appends the single pair decoded from the *last*
category id. -/
def convert (categoriesId : List Nat) : List (Nat × Nat) :=
  match categoriesId.getLast? with
  | none => []
  | some catId => [(getRuleId catId, getInputNumber catId)]

/-! ## Data model -/

/-- One conversational rule, with the fields of `Nlp::Rule` that
aimlengine.cpp consumes: `id()`, `input()`, `output()`, `target()`, `topic()`. -/
structure Rule where
  id : Nat
  input : List String
  output : List String
  target : List String
  topic : String
deriving Repr, DecidableEq

/-- Result of one `AIMLParser::getResponse` call: the response string, the
category-id list it filled in, and the parser's topic afterwards
(read back via `AIMLParser::topic()`). -/
structure ParserResult where
  response : String
  categoriesId : List Nat
  topicAfter : String
deriving Repr, DecidableEq

/-- Abstract behavior of one compiled `AIMLParser` (third-party ProgramQ, the
external pattern backend): given the topic installed via `setTopic` and the
normalized input, the result of `getResponse`. -/
def ParserBehavior : Type := String → String → ParserResult

/-- Association-list lookup used to model `QMap::find` / `contains`. -/
def mapFind (k : String) : List (String × α) → Option α
  | [] => none
  | (k', v) :: rest => if k' = k then some v else mapFind k rest

/-- Association-list insertion used to model `QMap::operator[]=` (replaces an
existing binding for the key, otherwise appends). -/
def mapInsert (m : List (String × α)) (k : String) (v : α) : List (String × α) :=
  match m with
  | [] => [(k, v)]
  | (k', v') :: rest => if k' = k then (k, v) :: rest else (k', v') :: mapInsert rest k v

/-- Current topic of a target in the topics map, `""` when absent
(the `QMap<QString,QString>` default value). -/
def topicOf (m : List (String × String)) (k : String) : String :=
  (mapFind k m).getD ""

/-- State of `Lvk::Nlp::AimlEngine`: rules, dirty flag, the
prefer-current-topic flag `m_setTopics`, the per-target parser map, the
per-target topic map, and the three normalization collaborators. -/
structure AimlEngine where
  rules : List Rule
  dirty : Bool
  setTopics : Bool
  parsers : List (String × ParserBehavior)
  topics : List (String × String)
  preSanitizer : String → String
  lemmatizer : String → String
  postSanitizer : String → String

/-- Engine constructed by the default constructor: null sanitizers and
lemmatizer (identity), empty rules, parsers and topics, flags false. -/
def initialEngine : AimlEngine :=
  { rules := [], dirty := false, setTopics := false, parsers := [], topics := [],
    preSanitizer := id, lemmatizer := id, postSanitizer := id }

/-! ## Normalization helpers -/

/-- Embedding of `AimlEngine::normalize(QString&)`: pre-sanitize, lemmatize,
post-sanitize. -/
def normalize (e : AimlEngine) (input : String) : String :=
  e.postSanitizer (e.lemmatizer (e.preSanitizer input))

/-- `input.remove('&')`: drop every ampersand character. -/
def removeAmp (s : String) : String :=
  ⟨s.data.filter (fun c => c != '&')⟩

/-- `topic.remove('"')`: drop every double-quote character. -/
def removeQuotes (s : String) : String :=
  ⟨s.data.filter (fun c => c != '"')⟩

/-- Embedding of `AimlEngine::escape`: `str.replace('&', "&amp;")`. -/
def escape (s : String) : String :=
  ⟨s.data.foldr
    (fun c acc => if c = '&' then '&' :: 'a' :: 'm' :: 'p' :: ';' :: acc else c :: acc) []⟩

/-- The normalized input a query works on: `normalize` then `remove('&')`
(aimlengine.cpp, `_getAllResponses`). -/
def normInputOf (e : AimlEngine) (input : String) : String :=
  removeAmp (normalize e input)

/-! ## AIML construction (aimlengine.cpp, buildAiml overloads) -/

/-- Embedding of `AimlEngine::buildAimlRandOutput`. -/
def buildAimlRandOutput (output : List String) : String :=
  match output with
  | [] => ""
  | [o] => o
  | _ => "<random>" ++ String.join (output.map (fun o => "<li>" ++ o ++ "</li>")) ++ "</random>"

/-- The `<category>` string emitted for input variant `i` of a rule:
id `getCategoryId(rule.id(), i)`, the trimmed/normalized/escaped pattern,
the topic set in a `<think>` block, and the (escaped) random output. -/
def buildAimlCat (e : AimlEngine) (rule : Rule) (i : Nat) : String :=
  let catId := toString (getCategoryId rule.id i)
  let input := escape (normalize e (rule.input.getD i "").trim)
  let randOutput := escape (buildAimlRandOutput rule.output)
  let topic := escape (removeQuotes rule.topic)
  let cat := "<category>" ++ "<id>" ++ catId ++ "</id>" ++ "<pattern>" ++ input ++
    "</pattern>" ++ "<template>" ++ "<think><set name=\"topic\">" ++ topic ++
    "</set></think>" ++ randOutput ++ "</template>" ++ "</category>"
  if e.setTopics then
    "<topic name=\"" ++ topic ++ "\">" ++ cat ++ "</topic>" ++
      "<topic name=\"\">" ++ cat ++ "</topic>"
  else
    cat

/-- Embedding of `AimlEngine::buildAiml(QString&, const Rule&)`: the loop over
the rule's input variants, appending one category per variant. -/
def buildAimlRule (e : AimlEngine) (rule : Rule) : String :=
  String.join ((List.range rule.input.length).map (buildAimlCat e rule))

/-- The rules the partition for `target` is built from: the loop filter in
`AimlEngine::buildAiml(QString&, const QString&)`,
`(target == ANY_USER && targetList.isEmpty()) || targetList.contains(target)`. -/
def includedRules (rules : List Rule) (target : String) : List Rule :=
  rules.filter (fun r => decide ((target = ANY_USER ∧ r.target = []) ∨ target ∈ r.target))

/-- Embedding of `AimlEngine::buildAiml(QString&, const QString&)`: the AIML
document for one target partition. -/
def buildAimlTarget (e : AimlEngine) (target : String) : String :=
  "<?xml version=\"1.0\" encoding=\"UTF-8\" ?>" ++ "<aiml>" ++
    String.join ((includedRules e.rules target).map (buildAimlRule e)) ++ "</aiml>"

/-- Embedding of `AimlEngine::refreshAiml`, abstracting `AIMLParser`
construction as `mk`: clear the parser map, build the ANY_USER parser, then
one parser per distinct target appearing in some rule's target list. -/
def refreshAiml (mk : String → ParserBehavior) (e : AimlEngine) : AimlEngine :=
  let ps0 := mapInsert ([] : List (String × ParserBehavior)) ANY_USER
    (mk (buildAimlTarget e ANY_USER))
  let ps := e.rules.foldl
    (fun ps rule =>
      rule.target.foldl
        (fun ps t =>
          if (mapFind t ps).isSome then ps
          else mapInsert ps t (mk (buildAimlTarget e t)))
        ps)
    ps0
  { e with parsers := ps }

/-! ## Query pipeline (aimlengine.cpp, getResponse and helpers) -/

/-- Embedding of `AimlEngine::getAllResponsesWithParser`. The `matches`
argument is the in-out match list; it is rewritten (via `convert`) only on a
valid match, and the per-target topic is read before the parser call and
written back from the parser afterwards. -/
def getAllResponsesWithParser (e : AimlEngine) (normInput target : String)
    (matchesIn : List (Nat × Nat)) (parserName : String) :
    List String × List (Nat × Nat) × AimlEngine :=
  match mapFind parserName e.parsers with
  | none => ([], matchesIn, e)
  | some p =>
    let res := p (topicOf e.topics target) normInput
    let e' := { e with topics := mapInsert e.topics target res.topicAfter }
    let catIds := if res.response = "" then [] else res.categoriesId
    if res.response ≠ "Internal Error!" ∧ catIds ≠ [] then
      ([res.response], convert catIds, e')
    else
      ([], matchesIn, e')

/-- The lazy-rebuild step at the top of `_getAllResponses`: if the dirty flag
is set, refresh the parsers and clear the flag. -/
def rebuildIfDirty (mk : String → ParserBehavior) (e : AimlEngine) : AimlEngine :=
  if e.dirty then { refreshAiml mk e with dirty := false } else e

/-- Embedding of `AimlEngine::_getAllResponses` (and the public
`getAllResponses` overloads that forward to it): rebuild if dirty, normalize,
query the target partition, and fall back to the ANY_USER partition when that
produced no response and the target is not the sentinel. -/
def getAllResponses (mk : String → ParserBehavior) (e : AimlEngine)
    (input target : String) (matchesIn : List (Nat × Nat)) :
    List String × List (Nat × Nat) × AimlEngine :=
  let e1 := rebuildIfDirty mk e
  let normInput := normInputOf e1 input
  let r1 := getAllResponsesWithParser e1 normInput target matchesIn target
  if r1.1 = [] ∧ target ≠ ANY_USER then
    getAllResponsesWithParser r1.2.2 normInput target r1.2.1 ANY_USER
  else
    r1

/-- Embedding of `AimlEngine::getResponse(input, target, matches)`: clears the
match list, gathers all responses, and returns the first response together
with the first match when any, the empty string and no matches otherwise. -/
def getResponse (mk : String → ParserBehavior) (e : AimlEngine)
    (input target : String) : String × List (Nat × Nat) × AimlEngine :=
  let r := getAllResponses mk e input target []
  if r.2.1 = [] then ("", [], r.2.2)
  else (r.1.headD "", [r.2.1.headD (0, 0)], r.2.2)

/-! ## Rule replacement and properties -/

/-- Embedding of `AimlEngine::setRules`: store the new rule list and set the
dirty flag. -/
def setRules (e : AimlEngine) (rules : List Rule) : AimlEngine :=
  { e with rules := rules, dirty := true }

/-- Modelled from the spec: the property-name constant
`NLP_PROP_PREFER_CUR_TOPIC` is declared in nlp-engine/nlpproperties.h, which
is not among the verified sources; the spec calls this property
"prefer-current-topic". -/
def NLP_PROP_PREFER_CUR_TOPIC : String := "prefer-current-topic"

/-- Embedding of `AimlEngine::property`: returns the prefer-current-topic
flag for that name and the invalid variant (`none`) for every other name. -/
def property (e : AimlEngine) (name : String) : Option Bool :=
  if name = NLP_PROP_PREFER_CUR_TOPIC then some e.setTopics else none

/-- Embedding of `AimlEngine::setProperty`: only the prefer-current-topic
name is handled, and the dirty flag is set only when the stored value actually
changes. -/
def setProperty (e : AimlEngine) (name : String) (value : Bool) : AimlEngine :=
  if name = NLP_PROP_PREFER_CUR_TOPIC then
    if value = true ∧ e.setTopics = false then { e with setTopics := true, dirty := true }
    else if value = false ∧ e.setTopics = true then { e with setTopics := false, dirty := true }
    else e
  else e

/-! ## Map lemmas -/

theorem mapFind_mapInsert_self (m : List (String × α)) (k : String) (v : α) :
    mapFind k (mapInsert m k v) = some v := by
  induction m with
  | nil => simp [mapInsert, mapFind]
  | cons hd tl ih =>
    obtain ⟨k', v'⟩ := hd
    by_cases hk : k' = k <;> simp [mapInsert, hk, mapFind, ih]

theorem mapFind_mapInsert_ne (m : List (String × α)) {k k' : String} (v : α) (h : k' ≠ k) :
    mapFind k (mapInsert m k' v) = mapFind k m := by
  induction m with
  | nil => simp [mapInsert, mapFind, h]
  | cons hd tl ih =>
    obtain ⟨k'', v''⟩ := hd
    by_cases hk : k'' = k' <;> by_cases hk2 : k'' = k <;>
      simp_all [mapInsert, mapFind]

/-! ## Codec lemmas -/

theorem getCategoryId_eq {r k : Nat} (hr : r < 2 ^ 51) (hk : k < 2 ^ 12) :
    getCategoryId r k = 2 ^ 12 * r + k := by
  have h1 : r * 2 ^ 12 < 2 ^ 64 := by
    norm_num at hr ⊢
    omega
  unfold getCategoryId INPUT_NUMBER_BITS
  rw [Nat.shiftLeft_eq, Nat.mod_eq_of_lt h1,
    Nat.mod_eq_of_lt (lt_trans hk (by norm_num : (2 : Nat) ^ 12 < 2 ^ 64)),
    mul_comm, ← Nat.mul_add_lt_is_or hk r]

theorem codec_roundtrip {r k : Nat} (hr : r < 2 ^ 51) (hk : k < 2 ^ 12) :
    getRuleId (getCategoryId r k) = r ∧ getInputNumber (getCategoryId r k) = k := by
  rw [getCategoryId_eq hr hk]
  have hlt : 2 ^ 12 * r + k < 2 ^ 63 := by
    norm_num at hr hk ⊢
    omega
  constructor
  · unfold getRuleId INPUT_NUMBER_BITS
    rw [if_pos hlt, Nat.shiftRight_eq_div_pow, Nat.mul_add_div (by norm_num),
      Nat.div_eq_of_lt hk, add_zero]
  · unfold getInputNumber INPUT_NUMBER_MASK
    have hm : (0xfff : Nat) = 2 ^ 12 - 1 := by norm_num
    rw [hm, Nat.and_pow_two_sub_one_eq_mod, Nat.mul_add_mod, Nat.mod_eq_of_lt hk]

/-! ## Query pipeline lemmas -/

theorem gawp_none {e : AimlEngine} {parserName : String} (n t : String)
    (ms : List (Nat × Nat)) (hf : mapFind parserName e.parsers = none) :
    getAllResponsesWithParser e n t ms parserName = ([], ms, e) := by
  simp [getAllResponsesWithParser, hf]

theorem gawp_success {e : AimlEngine} {parserName : String} {p : ParserBehavior}
    {res : ParserResult} (n t : String) (ms : List (Nat × Nat))
    (hf : mapFind parserName e.parsers = some p)
    (hres : p (topicOf e.topics t) n = res)
    (h1 : res.response ≠ "") (h2 : res.response ≠ "Internal Error!")
    (h3 : res.categoriesId ≠ []) :
    getAllResponsesWithParser e n t ms parserName =
      ([res.response], convert res.categoriesId,
        { e with topics := mapInsert e.topics t res.topicAfter }) := by
  simp [getAllResponsesWithParser, hf, hres, h1, h2, h3]

theorem gawp_discard {e : AimlEngine} {parserName : String} {p : ParserBehavior}
    {res : ParserResult} (n t : String) (ms : List (Nat × Nat))
    (hf : mapFind parserName e.parsers = some p)
    (hres : p (topicOf e.topics t) n = res)
    (h : res.response = "" ∨ res.response = "Internal Error!" ∨ res.categoriesId = []) :
    getAllResponsesWithParser e n t ms parserName =
      ([], ms, { e with topics := mapInsert e.topics t res.topicAfter }) := by
  rcases h with h | h | h <;> simp [getAllResponsesWithParser, hf, hres, h]

theorem gawp_shape (e : AimlEngine) (n t : String) (ms : List (Nat × Nat))
    (pn : String) :
    ((getAllResponsesWithParser e n t ms pn).1 = [] ∧
      (getAllResponsesWithParser e n t ms pn).2.1 = ms) ∨
    (∃ resp, (getAllResponsesWithParser e n t ms pn).1 = [resp] ∧ resp ≠ "" ∧
      resp ≠ "Internal Error!" ∧ ∃ c, (getAllResponsesWithParser e n t ms pn).2.1 = [c]) := by
  cases hf : mapFind pn e.parsers with
  | none => left; rw [gawp_none n t ms hf]; exact ⟨rfl, rfl⟩
  | some p =>
    by_cases h1 : (p (topicOf e.topics t) n).response = ""
    · left; rw [gawp_discard n t ms hf rfl (Or.inl h1)]; exact ⟨rfl, rfl⟩
    · by_cases h2 : (p (topicOf e.topics t) n).response = "Internal Error!"
      · left; rw [gawp_discard n t ms hf rfl (Or.inr (Or.inl h2))]; exact ⟨rfl, rfl⟩
      · by_cases h3 : (p (topicOf e.topics t) n).categoriesId = []
        · left; rw [gawp_discard n t ms hf rfl (Or.inr (Or.inr h3))]; exact ⟨rfl, rfl⟩
        · right
          rw [gawp_success n t ms hf rfl h1 h2 h3]
          refine ⟨(p (topicOf e.topics t) n).response, rfl, h1, h2, ?_⟩
          cases hlast : (p (topicOf e.topics t) n).categoriesId.getLast? with
          | none =>
            exact absurd (List.getLast?_eq_none_iff.mp hlast) h3
          | some c =>
            exact ⟨(getRuleId c, getInputNumber c), by simp [convert, hlast]⟩

theorem gawp_state (e : AimlEngine) (n t : String) (ms : List (Nat × Nat)) (pn : String) :
    ((getAllResponsesWithParser e n t ms pn).2.2).parsers = e.parsers ∧
    ((getAllResponsesWithParser e n t ms pn).2.2).dirty = e.dirty ∧
    ((getAllResponsesWithParser e n t ms pn).2.2).rules = e.rules ∧
    ((getAllResponsesWithParser e n t ms pn).2.2).setTopics = e.setTopics ∧
    ((getAllResponsesWithParser e n t ms pn).2.2).preSanitizer = e.preSanitizer ∧
    ((getAllResponsesWithParser e n t ms pn).2.2).lemmatizer = e.lemmatizer ∧
    ((getAllResponsesWithParser e n t ms pn).2.2).postSanitizer = e.postSanitizer := by
  cases hf : mapFind pn e.parsers with
  | none => rw [gawp_none n t ms hf]; exact ⟨rfl, rfl, rfl, rfl, rfl, rfl, rfl⟩
  | some p =>
    by_cases h1 : (p (topicOf e.topics t) n).response = ""
    · rw [gawp_discard n t ms hf rfl (Or.inl h1)]; exact ⟨rfl, rfl, rfl, rfl, rfl, rfl, rfl⟩
    · by_cases h2 : (p (topicOf e.topics t) n).response = "Internal Error!"
      · rw [gawp_discard n t ms hf rfl (Or.inr (Or.inl h2))]
        exact ⟨rfl, rfl, rfl, rfl, rfl, rfl, rfl⟩
      · by_cases h3 : (p (topicOf e.topics t) n).categoriesId = []
        · rw [gawp_discard n t ms hf rfl (Or.inr (Or.inr h3))]
          exact ⟨rfl, rfl, rfl, rfl, rfl, rfl, rfl⟩
        · rw [gawp_success n t ms hf rfl h1 h2 h3]
          exact ⟨rfl, rfl, rfl, rfl, rfl, rfl, rfl⟩

theorem gar_shape (mk : String → ParserBehavior) (e : AimlEngine) (input t : String) :
    ((getAllResponses mk e input t []).1 = [] ∧ (getAllResponses mk e input t []).2.1 = []) ∨
    (∃ resp, (getAllResponses mk e input t []).1 = [resp] ∧ resp ≠ "" ∧
      resp ≠ "Internal Error!" ∧ ∃ c, (getAllResponses mk e input t []).2.1 = [c]) := by
  simp only [getAllResponses]
  rcases gawp_shape (rebuildIfDirty mk e) (normInputOf (rebuildIfDirty mk e) input) t [] t
    with ⟨hr, hm⟩ | ⟨resp, hr, h1, h2, c, hm⟩
  · by_cases ht : t = ANY_USER
    · rw [if_neg (by simp [ht])]
      exact Or.inl ⟨hr, hm⟩
    · rw [if_pos ⟨hr, ht⟩, hm]
      exact gawp_shape _ _ t [] ANY_USER
  · rw [if_neg (by rw [hr]; simp)]
    exact Or.inr ⟨resp, hr, h1, h2, c, hm⟩

/-! ## Claim C1 -/

/-- C1: match identity round-trip and reporting. Corrected form: the packed
category id recovers the rule id and input index when the rule id fits in 51
bits and the input index in 12 bits (the code's `INPUT_NUMBER_BITS`
partition); under those bounds, a `getResponse` that succeeds through the
target partition via the category packed for `(r, k)` reports exactly the one
match `(r, k)`. -/
theorem c1_match_identity :
    (∀ r k : Nat, r < 2 ^ 51 → k < 2 ^ 12 →
      getRuleId (getCategoryId r k) = r ∧ getInputNumber (getCategoryId r k) = k) ∧
    (∀ (mk : String → ParserBehavior) (e : AimlEngine) (input target : String)
        (pt : ParserBehavior) (res : ParserResult) (r k : Nat),
      r < 2 ^ 51 → k < 2 ^ 12 →
      mapFind target (rebuildIfDirty mk e).parsers = some pt →
      pt (topicOf (rebuildIfDirty mk e).topics target)
          (normInputOf (rebuildIfDirty mk e) input) = res →
      res.response ≠ "" → res.response ≠ "Internal Error!" →
      res.categoriesId.getLast? = some (getCategoryId r k) →
      (getResponse mk e input target).1 = res.response ∧
        (getResponse mk e input target).2.1 = [(r, k)]) := by
  constructor
  · exact fun r k hr hk => codec_roundtrip hr hk
  · intro mk e input target pt res r k hr hk hf hres hne hie hlast
    have hcat : res.categoriesId ≠ [] := by
      intro hnil; rw [hnil] at hlast; simp at hlast
    have hph1 := gawp_success (normInputOf (rebuildIfDirty mk e) input) target
      ([] : List (Nat × Nat)) hf hres hne hie hcat
    have hconv : convert res.categoriesId = [(r, k)] := by
      simp only [convert, hlast]
      rw [(codec_roundtrip hr hk).1, (codec_roundtrip hr hk).2]
    simp only [getResponse, getAllResponses]
    rw [hph1]
    simp [hconv, hne]

/-- C1 counterexample: with an input-variant index of 4096 (one beyond the
12-bit field), the codec does not round-trip: the index bleeds into the rule
id, so the claim quantified over *every* index is false. -/
theorem c1_match_identity_cex :
    ¬ (getRuleId (getCategoryId 0 4096) = 0 ∧ getInputNumber (getCategoryId 0 4096) = 4096) := by
  intro h
  have h0 : getCategoryId 0 4096 = 4096 := by
    unfold getCategoryId INPUT_NUMBER_BITS
    rw [Nat.shiftLeft_eq]
    norm_num
  have h1 : getRuleId 4096 = 1 := by
    unfold getRuleId INPUT_NUMBER_BITS
    rw [if_pos (by norm_num), Nat.shiftRight_eq_div_pow]
  rw [h0, h1] at h
  exact absurd h.1 (by norm_num)

/-- Parser used in the C1 witness: always matches via the category packed for
rule 7, input variant 1. -/
def wParserC1 : ParserBehavior := fun t _ =>
  { response := "Hi!", categoriesId := [getCategoryId 7 1], topicAfter := t }

/-- Engine used in the C1 witness. -/
def wEngineC1 : AimlEngine := { initialEngine with parsers := [("alice", wParserC1)] }

theorem c1_match_identity_witness :
    getRuleId (getCategoryId 7 1) = 7 ∧ getInputNumber (getCategoryId 7 1) = 1 ∧
    (getResponse (fun _ => wParserC1) wEngineC1 "hello" "alice").1 = "Hi!" ∧
    (getResponse (fun _ => wParserC1) wEngineC1 "hello" "alice").2.1 = [(7, 1)] := by
  have h1 := c1_match_identity.1 7 1 (by norm_num) (by norm_num)
  have hf : mapFind "alice" (rebuildIfDirty (fun _ => wParserC1) wEngineC1).parsers
      = some wParserC1 := by
    simp [rebuildIfDirty, wEngineC1, initialEngine, mapFind]
  have h2 := c1_match_identity.2 (fun _ => wParserC1) wEngineC1 "hello" "alice" wParserC1
    (wParserC1 (topicOf (rebuildIfDirty (fun _ => wParserC1) wEngineC1).topics "alice")
      (normInputOf (rebuildIfDirty (fun _ => wParserC1) wEngineC1) "hello"))
    7 1 (by norm_num) (by norm_num) hf rfl (by simp [wParserC1]) (by simp [wParserC1])
    (by simp [wParserC1])
  exact ⟨h1.1, h1.2, h2.1, h2.2⟩

/-! ## More pipeline lemmas -/

theorem convert_ne_nil {l : List Nat} (h : l ≠ []) : ∃ c, convert l = [c] := by
  cases hl : l.getLast? with
  | none => exact absurd (List.getLast?_eq_none_iff.mp hl) h
  | some c => exact ⟨(getRuleId c, getInputNumber c), by simp [convert, hl]⟩

theorem rebuild_fields (mk : String → ParserBehavior) (e : AimlEngine) :
    (rebuildIfDirty mk e).dirty = false ∧
    (rebuildIfDirty mk e).topics = e.topics ∧
    (rebuildIfDirty mk e).rules = e.rules ∧
    (rebuildIfDirty mk e).setTopics = e.setTopics ∧
    (rebuildIfDirty mk e).preSanitizer = e.preSanitizer ∧
    (rebuildIfDirty mk e).lemmatizer = e.lemmatizer ∧
    (rebuildIfDirty mk e).postSanitizer = e.postSanitizer := by
  unfold rebuildIfDirty
  by_cases h : e.dirty = true
  · rw [if_pos h]
    exact ⟨rfl, rfl, rfl, rfl, rfl, rfl, rfl⟩
  · rw [if_neg h]
    refine ⟨?_, rfl, rfl, rfl, rfl, rfl, rfl⟩
    exact Bool.not_eq_true e.dirty ▸ h

theorem normInputOf_congr {e e' : AimlEngine} (h1 : e.preSanitizer = e'.preSanitizer)
    (h2 : e.lemmatizer = e'.lemmatizer) (h3 : e.postSanitizer = e'.postSanitizer)
    (input : String) : normInputOf e input = normInputOf e' input := by
  unfold normInputOf normalize
  rw [h1, h2, h3]

theorem getResponse_state (mk : String → ParserBehavior) (e : AimlEngine)
    (input t : String) :
    (getResponse mk e input t).2.2 = (getAllResponses mk e input t []).2.2 := by
  simp only [getResponse]
  split <;> rfl

theorem gar_state (mk : String → ParserBehavior) (e : AimlEngine) (input t : String)
    (ms : List (Nat × Nat)) :
    ((getAllResponses mk e input t ms).2.2).parsers = (rebuildIfDirty mk e).parsers ∧
    ((getAllResponses mk e input t ms).2.2).dirty = (rebuildIfDirty mk e).dirty ∧
    ((getAllResponses mk e input t ms).2.2).rules = (rebuildIfDirty mk e).rules ∧
    ((getAllResponses mk e input t ms).2.2).setTopics = (rebuildIfDirty mk e).setTopics ∧
    ((getAllResponses mk e input t ms).2.2).preSanitizer = (rebuildIfDirty mk e).preSanitizer ∧
    ((getAllResponses mk e input t ms).2.2).lemmatizer = (rebuildIfDirty mk e).lemmatizer ∧
    ((getAllResponses mk e input t ms).2.2).postSanitizer = (rebuildIfDirty mk e).postSanitizer := by
  simp only [getAllResponses]
  split
  · obtain ⟨a1, a2, a3, a4, a5, a6, a7⟩ := gawp_state (rebuildIfDirty mk e)
      (normInputOf (rebuildIfDirty mk e) input) t ms t
    obtain ⟨b1, b2, b3, b4, b5, b6, b7⟩ := gawp_state
      ((getAllResponsesWithParser (rebuildIfDirty mk e)
        (normInputOf (rebuildIfDirty mk e) input) t ms t).2.2)
      (normInputOf (rebuildIfDirty mk e) input) t
      ((getAllResponsesWithParser (rebuildIfDirty mk e)
        (normInputOf (rebuildIfDirty mk e) input) t ms t).2.1) ANY_USER
    exact ⟨b1.trans a1, b2.trans a2, b3.trans a3, b4.trans a4, b5.trans a5,
      b6.trans a6, b7.trans a7⟩
  · exact gawp_state (rebuildIfDirty mk e) (normInputOf (rebuildIfDirty mk e) input) t ms t

theorem rebuild_of_gar (mk : String → ParserBehavior) (e : AimlEngine) (input t : String)
    (ms : List (Nat × Nat)) :
    rebuildIfDirty mk ((getAllResponses mk e input t ms).2.2) =
      (getAllResponses mk e input t ms).2.2 := by
  have hd : ((getAllResponses mk e input t ms).2.2).dirty = false :=
    ((gar_state mk e input t ms).2.1).trans (rebuild_fields mk e).1
  unfold rebuildIfDirty
  rw [hd]
  simp

/-- The normalized input the query pipeline matches against:
the input after rebuild-if-dirty, sanitizer/lemmatizer normalization and
ampersand removal. -/
def normQuery (mk : String → ParserBehavior) (e : AimlEngine) (input : String) : String :=
  normInputOf (rebuildIfDirty mk e) input

theorem gawp_discard_generic (e2 : AimlEngine) (n t : String) (ms : List (Nat × Nat))
    (pn : String)
    (h : ∀ p, mapFind pn e2.parsers = some p →
      ∀ t', (p t' n).response = "" ∨ (p t' n).response = "Internal Error!" ∨
        (p t' n).categoriesId = []) :
    (getAllResponsesWithParser e2 n t ms pn).1 = [] ∧
      (getAllResponsesWithParser e2 n t ms pn).2.1 = ms := by
  cases hf : mapFind pn e2.parsers with
  | none => rw [gawp_none _ _ _ hf]; exact ⟨rfl, rfl⟩
  | some p => rw [gawp_discard _ _ _ hf rfl (h p hf _)]; exact ⟨rfl, rfl⟩

theorem gar_discard_all (mk : String → ParserBehavior) (e : AimlEngine)
    (input target : String)
    (h1 : ∀ p, mapFind target (rebuildIfDirty mk e).parsers = some p →
      ∀ t', (p t' (normQuery mk e input)).response = "" ∨
        (p t' (normQuery mk e input)).response = "Internal Error!" ∨
        (p t' (normQuery mk e input)).categoriesId = [])
    (h2 : ∀ p, mapFind ANY_USER (rebuildIfDirty mk e).parsers = some p →
      ∀ t', (p t' (normQuery mk e input)).response = "" ∨
        (p t' (normQuery mk e input)).response = "Internal Error!" ∨
        (p t' (normQuery mk e input)).categoriesId = []) :
    (getAllResponses mk e input target []).1 = [] ∧
      (getAllResponses mk e input target []).2.1 = [] := by
  unfold normQuery at h1 h2
  simp only [getAllResponses]
  have hph1 := gawp_discard_generic (rebuildIfDirty mk e)
    (normInputOf (rebuildIfDirty mk e) input) target [] target h1
  by_cases ht : target = ANY_USER
  · rw [if_neg (by simp [ht])]
    exact hph1
  · rw [if_pos ⟨hph1.1, ht⟩, hph1.2]
    refine gawp_discard_generic _ _ target _ ANY_USER ?_
    intro p hp
    refine h2 p ?_
    rwa [(gawp_state (rebuildIfDirty mk e)
      (normInputOf (rebuildIfDirty mk e) input) target [] target).1] at hp

/-! ## Claim C10 -/

/-- C10: getResponse returns a non-empty output string iff its match list is
non-empty; the match list has at most one element; and whenever the internal
response-gathering step produces a non-empty match list it also produces a
non-empty response list, so the assertion in getResponse never fails. -/
theorem c10_output_iff_match (mk : String → ParserBehavior) (e : AimlEngine)
    (input target : String) :
    ((getResponse mk e input target).1 ≠ "" ↔ (getResponse mk e input target).2.1 ≠ []) ∧
    (getResponse mk e input target).2.1.length ≤ 1 ∧
    ((getAllResponses mk e input target []).2.1 ≠ [] →
      (getAllResponses mk e input target []).1 ≠ []) := by
  rcases gar_shape mk e input target with ⟨hr, hm⟩ | ⟨resp, hr, h1, h2, c, hm⟩
  · have hres : getResponse mk e input target =
        ("", [], (getAllResponses mk e input target []).2.2) := by
      simp only [getResponse]
      rw [if_pos hm]
    rw [hres]
    exact ⟨by simp, by simp, fun hne => absurd hm hne⟩
  · have hres : getResponse mk e input target =
        (resp, [c], (getAllResponses mk e input target []).2.2) := by
      simp only [getResponse]
      rw [if_neg (by rw [hm]; simp), hr, hm]
      rfl
    rw [hres]
    refine ⟨by simp [h1], by simp, fun _ => ?_⟩
    rw [hr]
    simp

/-! ## Claim C2 -/

/-- The backend reports no matching pattern for this input, whatever the
current topic is. -/
def NoPatternMatch (p : ParserBehavior) (n : String) : Prop :=
  ∀ t, (p t n).categoriesId = []

/-- C2: when the normalized input matches no pattern in the target-specific
partition nor in the any-target partition, getResponse returns the empty
string and an empty match list, and does so again on a repeated call on the
resulting state (the rule set unchanged). -/
theorem c2_idempotent_no_match (mk : String → ParserBehavior) (e : AimlEngine)
    (input target : String)
    (h1 : ∀ p, mapFind target (rebuildIfDirty mk e).parsers = some p →
      NoPatternMatch p (normQuery mk e input))
    (h2 : ∀ p, mapFind ANY_USER (rebuildIfDirty mk e).parsers = some p →
      NoPatternMatch p (normQuery mk e input)) :
    (getResponse mk e input target).1 = "" ∧
    (getResponse mk e input target).2.1 = [] ∧
    (getResponse mk ((getResponse mk e input target).2.2) input target).1 = "" ∧
    (getResponse mk ((getResponse mk e input target).2.2) input target).2.1 = [] := by
  have ha := gar_discard_all mk e input target
    (fun p hp t' => Or.inr (Or.inr (h1 p hp t')))
    (fun p hp t' => Or.inr (Or.inr (h2 p hp t')))
  have hres : getResponse mk e input target =
      ("", [], (getAllResponses mk e input target []).2.2) := by
    simp only [getResponse]
    rw [if_pos ha.2]
  have hst := gar_state mk e input target []
  have hrb := rebuild_of_gar mk e input target []
  have hnorm : normQuery mk ((getAllResponses mk e input target []).2.2) input
      = normQuery mk e input := by
    unfold normQuery
    rw [hrb]
    exact normInputOf_congr hst.2.2.2.2.1 hst.2.2.2.2.2.1 hst.2.2.2.2.2.2 input
  have hpars : (rebuildIfDirty mk ((getAllResponses mk e input target []).2.2)).parsers
      = (rebuildIfDirty mk e).parsers := by
    rw [hrb]
    exact hst.1
  have h1' : ∀ p, mapFind target
      (rebuildIfDirty mk ((getAllResponses mk e input target []).2.2)).parsers = some p →
      NoPatternMatch p (normQuery mk ((getAllResponses mk e input target []).2.2) input) := by
    intro p hp
    rw [hpars] at hp
    rw [hnorm]
    exact h1 p hp
  have h2' : ∀ p, mapFind ANY_USER
      (rebuildIfDirty mk ((getAllResponses mk e input target []).2.2)).parsers = some p →
      NoPatternMatch p (normQuery mk ((getAllResponses mk e input target []).2.2) input) := by
    intro p hp
    rw [hpars] at hp
    rw [hnorm]
    exact h2 p hp
  have ha' := gar_discard_all mk ((getAllResponses mk e input target []).2.2) input target
    (fun p hp t' => Or.inr (Or.inr (h1' p hp t')))
    (fun p hp t' => Or.inr (Or.inr (h2' p hp t')))
  have hres' : getResponse mk ((getAllResponses mk e input target []).2.2) input target =
      ("", [],
        (getAllResponses mk ((getAllResponses mk e input target []).2.2) input target []).2.2) := by
    simp only [getResponse]
    rw [if_pos ha'.2]
  rw [hres, hres']
  exact ⟨rfl, rfl, rfl, rfl⟩

/-- Parser behavior matching nothing, used in the C2 witness. -/
def wParserNoMatch : ParserBehavior := fun t _ =>
  { response := "", categoriesId := [], topicAfter := t }

/-- Engine used in the C2 witness. -/
def wEngineC2 : AimlEngine :=
  { initialEngine with parsers := [("bob", wParserNoMatch), ("", wParserNoMatch)] }

theorem c2_idempotent_no_match_witness :
    (getResponse (fun _ => wParserNoMatch) wEngineC2 "hi" "bob").1 = "" ∧
    (getResponse (fun _ => wParserNoMatch) wEngineC2 "hi" "bob").2.1 = [] ∧
    (getResponse (fun _ => wParserNoMatch)
      ((getResponse (fun _ => wParserNoMatch) wEngineC2 "hi" "bob").2.2) "hi" "bob").1 = "" ∧
    (getResponse (fun _ => wParserNoMatch)
      ((getResponse (fun _ => wParserNoMatch) wEngineC2 "hi" "bob").2.2) "hi" "bob").2.1 = [] := by
  refine c2_idempotent_no_match (fun _ => wParserNoMatch) wEngineC2 "hi" "bob" ?_ ?_
  · intro p hp
    have hp' : some wParserNoMatch = some p := by
      simpa [rebuildIfDirty, wEngineC2, initialEngine, mapFind] using hp
    rw [← Option.some.inj hp']
    intro t
    rfl
  · intro p hp
    have hp' : some wParserNoMatch = some p := by
      simpa [rebuildIfDirty, wEngineC2, initialEngine, mapFind, ANY_USER] using hp
    rw [← Option.some.inj hp']
    intro t
    rfl

/-! ## Claim C9 -/

/-- The backend's response for this input is empty or the hardcoded
"Internal Error!" string, whatever the current topic is. -/
def InvalidResponse (p : ParserBehavior) (n : String) : Prop :=
  ∀ t, (p t n).response = "" ∨ (p t n).response = "Internal Error!"

/-- C9: when the backend's response is the empty string or exactly
"Internal Error!", the engine discards the match entirely: getResponse
returns the empty string and an empty match list (even when the backend's
category list shows a pattern matched). -/
theorem c9_invalid_response_discarded (mk : String → ParserBehavior) (e : AimlEngine)
    (input target : String)
    (h1 : ∀ p, mapFind target (rebuildIfDirty mk e).parsers = some p →
      InvalidResponse p (normQuery mk e input))
    (h2 : ∀ p, mapFind ANY_USER (rebuildIfDirty mk e).parsers = some p →
      InvalidResponse p (normQuery mk e input)) :
    (getResponse mk e input target).1 = "" ∧
    (getResponse mk e input target).2.1 = [] := by
  have ha := gar_discard_all mk e input target
    (fun p hp t' => ((h1 p hp t').imp_right Or.inl))
    (fun p hp t' => ((h2 p hp t').imp_right Or.inl))
  have hres : getResponse mk e input target =
      ("", [], (getAllResponses mk e input target []).2.2) := by
    simp only [getResponse]
    rw [if_pos ha.2]
  rw [hres]
  exact ⟨rfl, rfl⟩

/-- Parser behavior that matches a pattern but reports the hardcoded error
string, used in the C9 witness. -/
def wParserIE : ParserBehavior := fun t _ =>
  { response := "Internal Error!", categoriesId := [getCategoryId 3 0], topicAfter := t }

/-- Parser behavior that matches a pattern but produces an empty response,
used in the C9 witness. -/
def wParserEmptyResp : ParserBehavior := fun t _ =>
  { response := "", categoriesId := [getCategoryId 4 0], topicAfter := t }

/-- Engine used in the C9 witness. -/
def wEngineC9 : AimlEngine :=
  { initialEngine with parsers := [("bob", wParserIE), ("", wParserEmptyResp)] }

theorem c9_invalid_response_discarded_witness :
    (getResponse (fun _ => wParserIE) wEngineC9 "hola" "bob").1 = "" ∧
    (getResponse (fun _ => wParserIE) wEngineC9 "hola" "bob").2.1 = [] := by
  refine c9_invalid_response_discarded (fun _ => wParserIE) wEngineC9 "hola" "bob" ?_ ?_
  · intro p hp
    have hp' : some wParserIE = some p := by
      simpa [rebuildIfDirty, wEngineC9, initialEngine, mapFind] using hp
    rw [← Option.some.inj hp']
    intro t
    right
    rfl
  · intro p hp
    have hp' : some wParserEmptyResp = some p := by
      simpa [rebuildIfDirty, wEngineC9, initialEngine, mapFind, ANY_USER] using hp
    rw [← Option.some.inj hp']
    intro t
    left
    rfl

/-! ## Claim C3 -/

/-- The first (target-partition) query phase of `_getAllResponses`: the
target-specific parser queried with the normalized input and a cleared match
list. -/
def phase1Run (mk : String → ParserBehavior) (e : AimlEngine) (input target : String) :
    List String × List (Nat × Nat) × AimlEngine :=
  getAllResponsesWithParser (rebuildIfDirty mk e) (normQuery mk e input) target [] target

/-- C3: two-phase target resolution. The any-target partition is queried iff
the target-partition phase produced no response and the target is not the
sentinel: (1) when phase one yields a response, or the target is the sentinel,
the result is exactly the phase-one result (the any-target partition does not
enter); (2) when phase one yields nothing and the target is not the sentinel,
the result is exactly the any-target query on the post-phase-one state; and
(3) consequently a matching unscoped rule is still returned when no rule
scoped to the active partner matches. -/
theorem c3_two_phase (mk : String → ParserBehavior) (e : AimlEngine)
    (input target : String) :
    ((phase1Run mk e input target).1 ≠ [] ∨ target = ANY_USER →
      getAllResponses mk e input target [] = phase1Run mk e input target) ∧
    ((phase1Run mk e input target).1 = [] → target ≠ ANY_USER →
      getAllResponses mk e input target [] =
        getAllResponsesWithParser (phase1Run mk e input target).2.2 (normQuery mk e input)
          target (phase1Run mk e input target).2.1 ANY_USER) ∧
    (∀ (pa : ParserBehavior) (res : ParserResult), target ≠ ANY_USER →
      (∀ p, mapFind target (rebuildIfDirty mk e).parsers = some p →
        NoPatternMatch p (normQuery mk e input)) →
      mapFind ANY_USER (rebuildIfDirty mk e).parsers = some pa →
      pa (topicOf ((phase1Run mk e input target).2.2).topics target)
        (normQuery mk e input) = res →
      res.response ≠ "" → res.response ≠ "Internal Error!" → res.categoriesId ≠ [] →
      (getResponse mk e input target).1 = res.response ∧
        (getResponse mk e input target).2.1 = convert res.categoriesId) := by
  refine ⟨?_, ?_, ?_⟩
  · intro h
    unfold phase1Run normQuery at h ⊢
    simp only [getAllResponses]
    rcases h with h | h
    · rw [if_neg (fun hc => h hc.1)]
    · rw [if_neg (fun hc => hc.2 h)]
  · intro h ht
    unfold phase1Run normQuery at h ⊢
    simp only [getAllResponses]
    rw [if_pos ⟨h, ht⟩]
  · intro pa res ht hnm hpa hres h1 h2 h3
    have hph1 : (phase1Run mk e input target).1 = [] ∧
        (phase1Run mk e input target).2.1 = [] := by
      unfold phase1Run
      exact gawp_discard_generic _ _ target [] target
        (fun p hp t' => Or.inr (Or.inr (hnm p hp t')))
    have hgar : getAllResponses mk e input target [] =
        getAllResponsesWithParser (phase1Run mk e input target).2.2 (normQuery mk e input)
          target (phase1Run mk e input target).2.1 ANY_USER := by
      have hcopy := hph1.1
      unfold phase1Run normQuery at hcopy ⊢
      simp only [getAllResponses]
      rw [if_pos ⟨hcopy, ht⟩]
    have hf2 : mapFind ANY_USER ((phase1Run mk e input target).2.2).parsers = some pa := by
      unfold phase1Run
      rw [(gawp_state (rebuildIfDirty mk e) (normQuery mk e input) target [] target).1]
      exact hpa
    have hsucc := gawp_success (normQuery mk e input) target
      ((phase1Run mk e input target).2.1) hf2 hres h1 h2 h3
    obtain ⟨c, hc⟩ := convert_ne_nil h3
    simp only [getResponse]
    rw [hgar, hsucc, hc]
    constructor
    · rw [if_neg (by simp)]
      rfl
    · rw [if_neg (by simp)]
      rfl

/-- Unscoped-partition parser used in the C3 witness. -/
def wParserAny : ParserBehavior := fun t _ =>
  { response := "Generic hello", categoriesId := [getCategoryId 9 2], topicAfter := t }

/-- Engine used in the C3 witness: it has no partition for target "carl",
only the any-target partition. -/
def wEngineC3 : AimlEngine := { initialEngine with parsers := [("", wParserAny)] }

theorem c3_two_phase_witness :
    (getResponse (fun _ => wParserAny) wEngineC3 "hey" "carl").1 = "Generic hello" ∧
    (getResponse (fun _ => wParserAny) wEngineC3 "hey" "carl").2.1
      = convert [getCategoryId 9 2] := by
  have h := (c3_two_phase (fun _ => wParserAny) wEngineC3 "hey" "carl").2.2 wParserAny
    (wParserAny (topicOf ((phase1Run (fun _ => wParserAny) wEngineC3 "hey" "carl").2.2).topics
      "carl") (normQuery (fun _ => wParserAny) wEngineC3 "hey"))
    (by decide)
    (fun p hp => by simp [rebuildIfDirty, wEngineC3, initialEngine, mapFind] at hp)
    (by simp [rebuildIfDirty, wEngineC3, initialEngine, mapFind, ANY_USER])
    rfl
    (by simp [wParserAny])
    (by simp [wParserAny])
    (by simp [wParserAny])
  exact ⟨h.1, h.2⟩

/-! ## Claim C5 -/

/-- Modelled from the spec: the pattern backend's topic behavior. The
third-party ProgramQ `AIMLParser` that holds and updates the topic is not
among the verified sources; per the spec (Topic Tracker, §4.3, and the Topic
State lifecycle), a call that matches no rule, or matches a rule whose topic
is empty, reports its input topic back unchanged, and only a successful,
valid match of a rule with a non-empty topic reports a different (non-empty)
topic. -/
def TopicContract (p : ParserBehavior) : Prop :=
  ∀ t n, (p t n).topicAfter = t ∨
    ((p t n).categoriesId ≠ [] ∧ (p t n).response ≠ "" ∧
      (p t n).response ≠ "Internal Error!" ∧ (p t n).topicAfter ≠ "")

theorem gawp_topics_some {e : AimlEngine} {pn : String} {p : ParserBehavior}
    (n t : String) (ms : List (Nat × Nat)) (hf : mapFind pn e.parsers = some p) :
    ((getAllResponsesWithParser e n t ms pn).2.2).topics =
      mapInsert e.topics t ((p (topicOf e.topics t) n).topicAfter) := by
  by_cases h1 : (p (topicOf e.topics t) n).response = ""
  · rw [gawp_discard n t ms hf rfl (Or.inl h1)]
  · by_cases h2 : (p (topicOf e.topics t) n).response = "Internal Error!"
    · rw [gawp_discard n t ms hf rfl (Or.inr (Or.inl h2))]
    · by_cases h3 : (p (topicOf e.topics t) n).categoriesId = []
      · rw [gawp_discard n t ms hf rfl (Or.inr (Or.inr h3))]
      · rw [gawp_success n t ms hf rfl h1 h2 h3]

theorem gawp_topic_other (e : AimlEngine) (n t : String) (ms : List (Nat × Nat))
    (pn : String) (k : String) (hk : k ≠ t) :
    topicOf ((getAllResponsesWithParser e n t ms pn).2.2).topics k = topicOf e.topics k := by
  cases hf : mapFind pn e.parsers with
  | none => rw [gawp_none _ _ _ hf]
  | some p =>
    rw [gawp_topics_some n t ms hf]
    unfold topicOf
    rw [mapFind_mapInsert_ne _ _ (Ne.symm hk)]

theorem gawp_topic_main (e : AimlEngine) (n t : String) (ms : List (Nat × Nat))
    (pn : String)
    (hc : ∀ p, mapFind pn e.parsers = some p → TopicContract p) :
    topicOf ((getAllResponsesWithParser e n t ms pn).2.2).topics t = topicOf e.topics t ∨
    ((getAllResponsesWithParser e n t ms pn).1 ≠ [] ∧
      (getAllResponsesWithParser e n t ms pn).2.1 ≠ [] ∧
      topicOf ((getAllResponsesWithParser e n t ms pn).2.2).topics t ≠ "") := by
  cases hf : mapFind pn e.parsers with
  | none => left; rw [gawp_none _ _ _ hf]
  | some p =>
    rcases hc p hf (topicOf e.topics t) n with hpre | ⟨hcat, hresp, hie, htop⟩
    · left
      rw [gawp_topics_some n t ms hf]
      unfold topicOf
      rw [mapFind_mapInsert_self]
      exact hpre
    · right
      have hg := gawp_success n t ms hf rfl hresp hie hcat
      obtain ⟨c, hcv⟩ := convert_ne_nil hcat
      rw [hg]
      refine ⟨by simp, by simp [hcv], ?_⟩
      show topicOf (mapInsert e.topics t ((p (topicOf e.topics t) n).topicAfter)) t ≠ ""
      unfold topicOf
      rw [mapFind_mapInsert_self]
      exact htop

theorem gar_topic (mk : String → ParserBehavior) (e : AimlEngine) (input t : String)
    (h1 : ∀ p, mapFind t (rebuildIfDirty mk e).parsers = some p → TopicContract p)
    (h2 : ∀ p, mapFind ANY_USER (rebuildIfDirty mk e).parsers = some p → TopicContract p) :
    (∀ k, k ≠ t →
      topicOf ((getAllResponses mk e input t []).2.2).topics k = topicOf e.topics k) ∧
    (topicOf ((getAllResponses mk e input t []).2.2).topics t = topicOf e.topics t ∨
      ((getAllResponses mk e input t []).2.1 ≠ [] ∧
        topicOf ((getAllResponses mk e input t []).2.2).topics t ≠ "")) := by
  have htop0 : (rebuildIfDirty mk e).topics = e.topics := (rebuild_fields mk e).2.1
  simp only [getAllResponses]
  by_cases hcond : (getAllResponsesWithParser (rebuildIfDirty mk e)
      (normInputOf (rebuildIfDirty mk e) input) t [] t).1 = [] ∧ t ≠ ANY_USER
  · rw [if_pos hcond]
    constructor
    · intro k hk
      rw [gawp_topic_other _ _ _ _ _ k hk, gawp_topic_other _ _ _ _ _ k hk, htop0]
    · have hcontract2 : ∀ p, mapFind ANY_USER
          ((getAllResponsesWithParser (rebuildIfDirty mk e)
            (normInputOf (rebuildIfDirty mk e) input) t [] t).2.2).parsers = some p →
          TopicContract p := by
        intro p hp
        refine h2 p ?_
        rwa [(gawp_state (rebuildIfDirty mk e)
          (normInputOf (rebuildIfDirty mk e) input) t [] t).1] at hp
      rcases gawp_topic_main _ (normInputOf (rebuildIfDirty mk e) input) t _ ANY_USER
          hcontract2 with h | ⟨_, hm2, ht2⟩
      · rcases gawp_topic_main (rebuildIfDirty mk e)
            (normInputOf (rebuildIfDirty mk e) input) t [] t h1 with h1' | ⟨hr1, _, _⟩
        · left; rw [h, h1', htop0]
        · exact absurd hcond.1 hr1
      · right; exact ⟨hm2, ht2⟩
  · rw [if_neg hcond]
    constructor
    · intro k hk
      rw [gawp_topic_other _ _ _ _ _ k hk, htop0]
    · rcases gawp_topic_main (rebuildIfDirty mk e)
          (normInputOf (rebuildIfDirty mk e) input) t [] t h1 with h | ⟨_, hm1, ht1⟩
      · left; rw [h, htop0]
      · right; exact ⟨hm1, ht1⟩

/-- C5: topic update discipline. The tracked topic of a partner other than
the queried target is never touched; under the backend topic contract
(modelled from the spec, see `TopicContract`), a call that reports no match
leaves the queried partner's tracked topic unchanged, and whenever the
tracked topic does change, the call matched (non-empty match list) and the
new topic is non-empty. -/
theorem c5_topic_discipline (mk : String → ParserBehavior) (e : AimlEngine)
    (input target : String)
    (h1 : ∀ p, mapFind target (rebuildIfDirty mk e).parsers = some p → TopicContract p)
    (h2 : ∀ p, mapFind ANY_USER (rebuildIfDirty mk e).parsers = some p → TopicContract p) :
    (∀ k, k ≠ target →
      topicOf ((getResponse mk e input target).2.2).topics k = topicOf e.topics k) ∧
    ((getResponse mk e input target).2.1 = [] →
      topicOf ((getResponse mk e input target).2.2).topics target
        = topicOf e.topics target) ∧
    (topicOf ((getResponse mk e input target).2.2).topics target
        ≠ topicOf e.topics target →
      (getResponse mk e input target).2.1 ≠ [] ∧
        topicOf ((getResponse mk e input target).2.2).topics target ≠ "") := by
  have hg := gar_topic mk e input target h1 h2
  have hst := getResponse_state mk e input target
  have hm : (getResponse mk e input target).2.1 = [] ↔
      (getAllResponses mk e input target []).2.1 = [] := by
    by_cases hq : (getAllResponses mk e input target []).2.1 = []
    · simp only [getResponse]; rw [if_pos hq]; simpa
    · simp only [getResponse]; rw [if_neg hq]; simp [hq]
  refine ⟨fun k hk => by rw [hst]; exact hg.1 k hk, ?_, ?_⟩
  · intro hq
    rw [hst]
    rcases hg.2 with h | ⟨hne, _⟩
    · exact h
    · exact absurd (hm.mp hq) hne
  · intro hch
    rw [hst] at hch ⊢
    rcases hg.2 with h | ⟨hne, ht'⟩
    · exact absurd h hch
    · exact ⟨fun hq => hne (hm.mp hq), ht'⟩

/-- Parser used in the C5 witness: a valid match of a rule whose topic is
"sports". -/
def wParserTopic : ParserBehavior := fun _ _ =>
  { response := "yo", categoriesId := [getCategoryId 2 0], topicAfter := "sports" }

/-- Engine used in the C5 witness. -/
def wEngineC5 : AimlEngine := { initialEngine with parsers := [("", wParserTopic)] }

theorem c5_topic_discipline_witness :
    (getResponse (fun _ => wParserTopic) wEngineC5 "x" "carl").2.1 ≠ [] ∧
    topicOf ((getResponse (fun _ => wParserTopic) wEngineC5 "x" "carl").2.2).topics
      "carl" ≠ "" := by
  have h := c5_topic_discipline (fun _ => wParserTopic) wEngineC5 "x" "carl"
    (fun p hp => by simp [rebuildIfDirty, wEngineC5, initialEngine, mapFind] at hp)
    (fun p hp => by
      have hp' : some wParserTopic = some p := by
        simpa [rebuildIfDirty, wEngineC5, initialEngine, mapFind, ANY_USER] using hp
      rw [← Option.some.inj hp']
      intro t n
      right
      exact ⟨by simp [wParserTopic], by simp [wParserTopic], by simp [wParserTopic],
        by simp [wParserTopic]⟩)
  exact h.2.2 (by decide)

/-! ## Claim C6 -/

theorem AimlEngine.ext' {a b : AimlEngine} (h1 : a.rules = b.rules)
    (h2 : a.dirty = b.dirty) (h3 : a.setTopics = b.setTopics)
    (h4 : a.parsers = b.parsers) (h5 : a.topics = b.topics)
    (h6 : a.preSanitizer = b.preSanitizer) (h7 : a.lemmatizer = b.lemmatizer)
    (h8 : a.postSanitizer = b.postSanitizer) : a = b := by
  cases a; cases b
  simp_all

theorem buildAimlCat_congr {a b : AimlEngine} (hs : a.setTopics = b.setTopics)
    (hpre : a.preSanitizer = b.preSanitizer) (hlem : a.lemmatizer = b.lemmatizer)
    (hpost : a.postSanitizer = b.postSanitizer) (rule : Rule) (i : Nat) :
    buildAimlCat a rule i = buildAimlCat b rule i := by
  simp only [buildAimlCat, normalize, hs, hpre, hlem, hpost]

theorem buildAimlTarget_congr {a b : AimlEngine} (hr : a.rules = b.rules)
    (hs : a.setTopics = b.setTopics) (hpre : a.preSanitizer = b.preSanitizer)
    (hlem : a.lemmatizer = b.lemmatizer) (hpost : a.postSanitizer = b.postSanitizer)
    (t : String) : buildAimlTarget a t = buildAimlTarget b t := by
  have hcat : ∀ rule : Rule, buildAimlCat a rule = buildAimlCat b rule :=
    fun rule => funext (buildAimlCat_congr hs hpre hlem hpost rule)
  have hruleF : buildAimlRule a = buildAimlRule b := by
    funext rule
    simp only [buildAimlRule, hcat]
  simp only [buildAimlTarget, hr, hruleF]

theorem refreshAiml_parsers_congr (mk : String → ParserBehavior) {a b : AimlEngine}
    (hr : a.rules = b.rules) (hs : a.setTopics = b.setTopics)
    (hpre : a.preSanitizer = b.preSanitizer) (hlem : a.lemmatizer = b.lemmatizer)
    (hpost : a.postSanitizer = b.postSanitizer) :
    (refreshAiml mk a).parsers = (refreshAiml mk b).parsers := by
  have hb : ∀ t, buildAimlTarget a t = buildAimlTarget b t :=
    fun t => buildAimlTarget_congr hr hs hpre hlem hpost t
  simp only [refreshAiml, hr, hb]

theorem getResponse_congr (mk : String → ParserBehavior) {a b : AimlEngine}
    (h : rebuildIfDirty mk a = rebuildIfDirty mk b) (input t : String) :
    getResponse mk a input t = getResponse mk b input t := by
  simp only [getResponse, getAllResponses, h]

/-- C6: rule-set replacement with lazy rebuild. setRules stores the new rule
set and sets the dirty flag; a subsequent getResponse rebuilds the parser
partitions from the current rule set before matching and clears the flag, so
its outcome is independent of whatever parsers and rules the engine held
before setRules (never a mix of old and new). -/
theorem c6_set_rules_rebuild (a b : AimlEngine) (rules : List Rule)
    (htopics : a.topics = b.topics) (hflag : a.setTopics = b.setTopics)
    (hpre : a.preSanitizer = b.preSanitizer) (hlem : a.lemmatizer = b.lemmatizer)
    (hpost : a.postSanitizer = b.postSanitizer)
    (mk : String → ParserBehavior) (input target : String) :
    (setRules a rules).rules = rules ∧
    (setRules a rules).dirty = true ∧
    (rebuildIfDirty mk (setRules a rules)).dirty = false ∧
    (rebuildIfDirty mk (setRules a rules)).parsers
      = (refreshAiml mk (setRules a rules)).parsers ∧
    getResponse mk (setRules a rules) input target
      = getResponse mk (setRules b rules) input target := by
  refine ⟨rfl, rfl, (rebuild_fields mk (setRules a rules)).1, rfl, ?_⟩
  refine getResponse_congr mk ?_ input target
  have hra : rebuildIfDirty mk (setRules a rules)
      = { refreshAiml mk (setRules a rules) with dirty := false } := by
    unfold rebuildIfDirty
    rw [if_pos (show (setRules a rules).dirty = true from rfl)]
  have hrb : rebuildIfDirty mk (setRules b rules)
      = { refreshAiml mk (setRules b rules) with dirty := false } := by
    unfold rebuildIfDirty
    rw [if_pos (show (setRules b rules).dirty = true from rfl)]
  rw [hra, hrb]
  exact AimlEngine.ext' rfl rfl hflag
    (refreshAiml_parsers_congr mk rfl hflag hpre hlem hpost) htopics hpre hlem hpost

/-- Rule installed by the C6 witness. -/
def wRuleC6 : Rule := { id := 5, input := ["hello"], output := ["world"], target := [], topic := "" }

/-- Stale engine used in the C6 witness: old rules and a stale parser map. -/
def wOldEngineC6 : AimlEngine :=
  { initialEngine with
    rules := [{ id := 1, input := ["bye"], output := ["later"], target := [], topic := "" }],
    parsers := [("stale", wParserAny)] }

theorem c6_set_rules_rebuild_witness :
    (setRules wOldEngineC6 [wRuleC6]).rules = [wRuleC6] ∧
    (setRules wOldEngineC6 [wRuleC6]).dirty = true ∧
    (rebuildIfDirty (fun _ => wParserAny) (setRules wOldEngineC6 [wRuleC6])).dirty = false ∧
    (rebuildIfDirty (fun _ => wParserAny) (setRules wOldEngineC6 [wRuleC6])).parsers
      = (refreshAiml (fun _ => wParserAny) (setRules wOldEngineC6 [wRuleC6])).parsers ∧
    getResponse (fun _ => wParserAny) (setRules wOldEngineC6 [wRuleC6]) "hi" "u"
      = getResponse (fun _ => wParserAny) (setRules initialEngine [wRuleC6]) "hi" "u" :=
  c6_set_rules_rebuild wOldEngineC6 initialEngine [wRuleC6] rfl rfl rfl rfl rfl
    (fun _ => wParserAny) "hi" "u"

/-! ## Claim C7 -/

/-- C7, corrected: get-after-set holds for the one supported property name,
prefer-current-topic, and setProperty marks the engine dirty exactly when the
stored value actually changes; every other name, "output-mode" included, is
unsupported: setProperty is a no-op and property returns the invalid
(none) variant. -/
theorem c7_property_get_after_set :
    (∀ (e : AimlEngine) (v : Bool),
      property (setProperty e NLP_PROP_PREFER_CUR_TOPIC v) NLP_PROP_PREFER_CUR_TOPIC
        = some v ∧
      (setProperty e NLP_PROP_PREFER_CUR_TOPIC v).dirty
        = (if v = e.setTopics then e.dirty else true)) ∧
    (∀ (e : AimlEngine) (name : String) (v : Bool), name ≠ NLP_PROP_PREFER_CUR_TOPIC →
      setProperty e name v = e ∧ property (setProperty e name v) name = none) := by
  constructor
  · intro e v
    cases v <;> cases hs : e.setTopics <;>
      simp [setProperty, property, hs]
  · intro e name v h
    unfold setProperty property
    rw [if_neg h, if_neg h]
    exact ⟨rfl, rfl⟩

/-- C7 counterexample: the claim names "output-mode" as a supported property,
but after setProperty("output-mode", true) the engine does not return that
value: property("output-mode") is the invalid variant, not true. -/
theorem c7_property_cex :
    property (setProperty initialEngine "output-mode" true) "output-mode" ≠ some true := by
  decide

theorem c7_property_get_after_set_witness :
    property (setProperty initialEngine NLP_PROP_PREFER_CUR_TOPIC true)
      NLP_PROP_PREFER_CUR_TOPIC = some true ∧
    (setProperty initialEngine NLP_PROP_PREFER_CUR_TOPIC true).dirty = true ∧
    setProperty initialEngine "output-mode" false = initialEngine ∧
    property (setProperty initialEngine "output-mode" false) "output-mode" = none := by
  have h1 := c7_property_get_after_set.1 initialEngine true
  have h2 := c7_property_get_after_set.2 initialEngine "output-mode" false (by decide)
  refine ⟨h1.1, ?_, h2.1, h2.2⟩
  simpa [initialEngine] using h1.2

/-! ## Claim C4 -/

theorem mapFind_fold_insert (B : String → ParserBehavior) (ts : List String) :
    ∀ (ps : List (String × ParserBehavior)) (q : String → Bool),
      (∀ s, mapFind s ps = if q s then some (B s) else none) →
      ∀ s, mapFind s (ts.foldl (fun acc t' =>
          if (mapFind t' acc).isSome then acc else mapInsert acc t' (B t')) ps)
        = if q s || ts.contains s then some (B s) else none := by
  induction ts with
  | nil =>
    intro ps q h s
    simpa using h s
  | cons t0 rest ih =>
    intro ps q h s
    rw [List.foldl_cons]
    have hstep : ∀ s, mapFind s (if (mapFind t0 ps).isSome then ps
          else mapInsert ps t0 (B t0))
        = if q s || s == t0 then some (B s) else none := by
      intro s
      by_cases hq0 : q t0
      · rw [if_pos (by rw [h t0, if_pos hq0]; rfl)]
        rw [h s]
        by_cases hqs : q s
        · rw [if_pos hqs, if_pos (by simp [hqs])]
        · rw [if_neg hqs]
          by_cases hes : s = t0
          · subst hes
            exact absurd hq0 hqs
          · rw [if_neg (by simp [hqs, hes])]
      · have hnone : mapFind t0 ps = none := by rw [h t0, if_neg hq0]
        rw [if_neg (by rw [hnone]; simp)]
        by_cases hes : s = t0
        · subst hes
          rw [mapFind_mapInsert_self, if_pos (by simp)]
        · rw [mapFind_mapInsert_ne _ _ (fun hh => hes hh.symm)]
          rw [h s]
          by_cases hqs : q s
          · rw [if_pos hqs, if_pos (by simp [hqs])]
          · rw [if_neg hqs, if_neg (by simp [hqs, hes])]
    have hrec := ih (if (mapFind t0 ps).isSome then ps else mapInsert ps t0 (B t0))
      (fun s => q s || s == t0) hstep s
    rw [hrec]
    have hc : ((q s || s == t0) || rest.contains s)
        = (q s || (t0 :: rest).contains s) := by
      rw [Bool.eq_iff_iff]
      simp [List.contains_cons, or_assoc]
    rw [hc]

theorem mapFind_fold_rules (B : String → ParserBehavior) (rules : List Rule) :
    ∀ (ps : List (String × ParserBehavior)) (q : String → Bool),
      (∀ s, mapFind s ps = if q s then some (B s) else none) →
      ∀ s, mapFind s (rules.foldl (fun acc rule =>
          rule.target.foldl (fun acc2 t' =>
            if (mapFind t' acc2).isSome then acc2 else mapInsert acc2 t' (B t')) acc) ps)
        = if q s || rules.any (fun r => r.target.contains s) then some (B s) else none := by
  induction rules with
  | nil =>
    intro ps q h s
    simpa using h s
  | cons r0 rest ih =>
    intro ps q h s
    rw [List.foldl_cons]
    have h1 := mapFind_fold_insert B r0.target ps q h
    have hrec := ih _ (fun s => q s || r0.target.contains s) h1 s
    rw [hrec]
    have hc : ((q s || r0.target.contains s) || rest.any (fun r => r.target.contains s))
        = (q s || (r0 :: rest).any (fun r => r.target.contains s)) := by
      rw [Bool.eq_iff_iff]
      simp [or_assoc]
    rw [hc]

/-- After `refreshAiml`, the parser map has exactly one parser for the
sentinel and one per target occurring in some rule's target list, each built
from that target's AIML document. -/
theorem refreshAiml_parsers_eq (mk : String → ParserBehavior) (e : AimlEngine)
    (t : String) :
    mapFind t (refreshAiml mk e).parsers
      = if t == ANY_USER || e.rules.any (fun r => r.target.contains t)
        then some (mk (buildAimlTarget e t)) else none := by
  have hbase : ∀ s, mapFind s (mapInsert ([] : List (String × ParserBehavior)) ANY_USER
      (mk (buildAimlTarget e ANY_USER)))
      = if (s == ANY_USER) then some (mk (buildAimlTarget e s)) else none := by
    intro s
    by_cases hs : s = ANY_USER
    · subst hs
      rw [mapFind_mapInsert_self, if_pos (by simp)]
    · rw [mapFind_mapInsert_ne _ _ (fun hh => hs hh.symm)]
      rw [if_neg (by simp [hs])]
      rfl
  have hmain := mapFind_fold_rules (fun s => mk (buildAimlTarget e s)) e.rules _
    (fun s => s == ANY_USER) hbase t
  simpa [refreshAiml] using hmain

/-- C4, corrected: after a rebuild the partition for a *non-sentinel* target
t is built from exactly the rules whose targets contain t; the any-target
partition is built from exactly the rules whose target list is empty *or
contains the empty-string sentinel*; the parser map holds exactly the
sentinel partition and one partition per occurring target, each compiled from
its partition document; and each included rule contributes one category per
input variant k, keyed by getCategoryId(rule.id, k). -/
theorem c4_partition_content :
    (∀ (rules : List Rule) (t : String) (r : Rule), t ≠ ANY_USER →
      (r ∈ includedRules rules t ↔ r ∈ rules ∧ t ∈ r.target)) ∧
    (∀ (rules : List Rule) (r : Rule),
      r ∈ includedRules rules ANY_USER ↔
        r ∈ rules ∧ (r.target = [] ∨ ANY_USER ∈ r.target)) ∧
    (∀ (mk : String → ParserBehavior) (e : AimlEngine) (t : String),
      (t == ANY_USER || e.rules.any (fun r => r.target.contains t)) = true →
      mapFind t (refreshAiml mk e).parsers = some (mk (buildAimlTarget e t))) ∧
    (∀ (mk : String → ParserBehavior) (e : AimlEngine) (t : String),
      (t == ANY_USER || e.rules.any (fun r => r.target.contains t)) = false →
      mapFind t (refreshAiml mk e).parsers = none) ∧
    (∀ (e : AimlEngine) (t : String), buildAimlTarget e t =
      "<?xml version=\"1.0\" encoding=\"UTF-8\" ?>" ++ "<aiml>" ++
        String.join ((includedRules e.rules t).map (buildAimlRule e)) ++ "</aiml>") ∧
    (∀ (e : AimlEngine) (rule : Rule), buildAimlRule e rule =
      String.join ((List.range rule.input.length).map (buildAimlCat e rule))) := by
  refine ⟨?_, ?_, ?_, ?_, fun e t => rfl, fun e rule => rfl⟩
  · intro rules t r ht
    simp [includedRules, List.mem_filter, ht]
  · intro rules r
    simp [includedRules, List.mem_filter, ANY_USER]
  · intro mk e t hcond
    rw [refreshAiml_parsers_eq, if_pos hcond]
  · intro mk e t hcond
    rw [refreshAiml_parsers_eq, if_neg (by rw [hcond]; decide)]

/-- Degenerate rule whose target list contains the empty-string sentinel,
used in the C4 counterexample. -/
def wRuleEmptyTarget : Rule :=
  { id := 1, input := ["hi"], output := ["ho"], target := [""], topic := "" }

/-- C4 counterexample: the any-target partition is *not* built from exactly
the rules whose targets set is empty — a rule whose target list is the
one-element list [""] is also included, though its targets set is
non-empty. -/
theorem c4_partition_content_cex :
    wRuleEmptyTarget ∈ includedRules [wRuleEmptyTarget] ANY_USER ∧
      wRuleEmptyTarget.target ≠ [] := by
  decide

/-- Scoped rule used in the C4 witness. -/
def wRuleScoped : Rule :=
  { id := 2, input := ["hello"], output := ["hi alice"], target := ["alice"], topic := "" }

/-- Unscoped rule used in the C4 witness. -/
def wRuleUnscoped : Rule :=
  { id := 3, input := ["bye"], output := ["see you"], target := [], topic := "" }

/-- Engine used in the C4 witness. -/
def wEngineC4 : AimlEngine := { initialEngine with rules := [wRuleScoped, wRuleUnscoped] }

theorem c4_partition_content_witness :
    (wRuleScoped ∈ includedRules [wRuleScoped, wRuleUnscoped] "alice" ∧
      wRuleUnscoped ∉ includedRules [wRuleScoped, wRuleUnscoped] "alice") ∧
    wRuleUnscoped ∈ includedRules [wRuleScoped, wRuleUnscoped] ANY_USER ∧
    mapFind "alice" (refreshAiml (fun _ => wParserAny) wEngineC4).parsers
      = some ((fun _ => wParserAny) (buildAimlTarget wEngineC4 "alice")) ∧
    mapFind "dora" (refreshAiml (fun _ => wParserAny) wEngineC4).parsers = none := by
  have h := c4_partition_content
  refine ⟨⟨?_, ?_⟩, ?_, ?_, ?_⟩
  · exact (h.1 [wRuleScoped, wRuleUnscoped] "alice" wRuleScoped (by decide)).mpr
      ⟨by decide, by decide⟩
  · intro hmem
    exact absurd ((h.1 [wRuleScoped, wRuleUnscoped] "alice" wRuleUnscoped
      (by decide)).mp hmem).2 (by decide)
  · exact (h.2.1 [wRuleScoped, wRuleUnscoped] wRuleUnscoped).mpr ⟨by decide, by decide⟩
  · exact h.2.2.1 (fun _ => wParserAny) wEngineC4 "alice" (by decide)
  · exact h.2.2.2.1 (fun _ => wParserAny) wEngineC4 "dora" (by decide)

/-! ## Claim C8 -/

/-- Modelled from the spec: the Loop Guard's engine-wide maximum redirect
depth (§4.6). Redirect (srai) resolution lives in the third-party AIMLParser,
which is not among the verified sources; the spec fixes that the bound is a
small engine-wide constant not configurable by the operator, without naming
its value. -/
def MAX_REDIRECT_DEPTH : Nat := 8

/-- Modelled from the spec: one bounded redirect-resolution chain (§4.6).
`step` is the matching pipeline (input to matched output and match identity,
none on no match); `redirectOf` recognizes a redirect output and yields the
re-submitted input. The chain stops at a stable non-redirecting output; when
the fuel (depth bound) is exhausted the original input is treated as
unmatched: empty output, empty match list. -/
def resolveRedirect (step : String → Option (String × (Nat × Nat)))
    (redirectOf : String → Option String) : Nat → String → String × List (Nat × Nat)
  | 0, _ => ("", [])
  | fuel + 1, input =>
    match step input with
    | none => ("", [])
    | some (out, m) =>
      match redirectOf out with
      | none => (out, [m])
      | some next => resolveRedirect step redirectOf fuel next

/-- Modelled from the spec: the guarded response, a redirect chain bounded by
the engine-wide constant. -/
def guardedResponse (step : String → Option (String × (Nat × Nat)))
    (redirectOf : String → Option String) (input : String) : String × List (Nat × Nat) :=
  resolveRedirect step redirectOf MAX_REDIRECT_DEPTH input

/-- Number of internal re-submission steps a bounded redirect chain takes. -/
def redirectSteps (step : String → Option (String × (Nat × Nat)))
    (redirectOf : String → Option String) : Nat → String → Nat
  | 0, _ => 0
  | fuel + 1, input =>
    match step input with
    | none => 1
    | some (out, _) =>
      match redirectOf out with
      | none => 1
      | some next => 1 + redirectSteps step redirectOf fuel next

theorem redirectSteps_le (step : String → Option (String × (Nat × Nat)))
    (redirectOf : String → Option String) :
    ∀ (fuel : Nat) (input : String), redirectSteps step redirectOf fuel input ≤ fuel := by
  intro fuel
  induction fuel with
  | zero => intro input; exact Nat.le_refl 0
  | succ n ih =>
    intro input
    unfold redirectSteps
    cases hs : step input with
    | none =>
      show 1 ≤ n + 1
      omega
    | some om =>
      obtain ⟨out, m⟩ := om
      show (match redirectOf out with
        | none => 1
        | some next => 1 + redirectSteps step redirectOf n next) ≤ n + 1
      cases hr : redirectOf out with
      | none =>
        show 1 ≤ n + 1
        omega
      | some next =>
        show 1 + redirectSteps step redirectOf n next ≤ n + 1
        have := ih next
        omega

/-- C8: loop-guard termination. The redirect chain always terminates within
the fixed engine-wide bound (the step count never exceeds
MAX_REDIRECT_DEPTH), and for any rule set in which every matched output
redirects again — in particular a 2-cycle where A's output redirects to B and
B's back to A — the guarded response is the empty string with an empty match
list. -/
theorem c8_loop_guard (step : String → Option (String × (Nat × Nat)))
    (redirectOf : String → Option String) :
    (∀ input, redirectSteps step redirectOf MAX_REDIRECT_DEPTH input
      ≤ MAX_REDIRECT_DEPTH) ∧
    (∀ input, (∀ s out m, step s = some (out, m) → (redirectOf out).isSome) →
      guardedResponse step redirectOf input = ("", [])) := by
  constructor
  · exact fun input => redirectSteps_le step redirectOf MAX_REDIRECT_DEPTH input
  · intro input hcyc
    unfold guardedResponse
    generalize MAX_REDIRECT_DEPTH = fuel
    induction fuel generalizing input with
    | zero => rfl
    | succ n ih =>
      unfold resolveRedirect
      cases hs : step input with
      | none => rfl
      | some om =>
        obtain ⟨out, m⟩ := om
        have hredir := hcyc input out m hs
        show (match redirectOf out with
          | none => (out, [m])
          | some next => resolveRedirect step redirectOf n next) = ("", [])
        cases hr : redirectOf out with
        | none => rw [hr] at hredir; simp at hredir
        | some next => exact ih next

/-- Redirect 2-cycle used in the C8 witness: input "A" matches with output
"goto B", which redirects to input "B", which matches with output "goto A",
which redirects back to "A". -/
def wStepAB : String → Option (String × (Nat × Nat)) := fun s =>
  if s = "A" then some ("goto B", (1, 0))
  else if s = "B" then some ("goto A", (2, 0))
  else none

/-- Redirect recognizer for the C8 witness 2-cycle. -/
def wRedirectAB : String → Option String := fun out =>
  if out = "goto B" then some "B"
  else if out = "goto A" then some "A"
  else none

theorem c8_loop_guard_witness :
    redirectSteps wStepAB wRedirectAB MAX_REDIRECT_DEPTH "A" ≤ MAX_REDIRECT_DEPTH ∧
    guardedResponse wStepAB wRedirectAB "A" = ("", []) := by
  have h := c8_loop_guard wStepAB wRedirectAB
  refine ⟨h.1 "A", h.2 "A" ?_⟩
  intro s out m hs
  unfold wStepAB at hs
  by_cases h1 : s = "A"
  · rw [if_pos h1] at hs
    obtain ⟨hout, _⟩ := Prod.mk.injEq .. ▸ Option.some.inj hs
    rw [← hout]
    decide
  · rw [if_neg h1] at hs
    by_cases h2 : s = "B"
    · rw [if_pos h2] at hs
      obtain ⟨hout, _⟩ := Prod.mk.injEq .. ▸ Option.some.inj hs
      rw [← hout]
      decide
    · rw [if_neg h2] at hs
      exact absurd hs (by simp)

end Chatbot
